import Mathlib

/-!
A shallow embedding, in Lean, of the original logic of the Walter repository
(a GIS documentation assistant): the multi-format text renderer
(`walter/utils/text.py`), the LLM narrative generator with its deterministic
fallbacks (`walter/integrations/llm.py`), the CRS description and geometry
statistics helpers (`walter/utils/gis.py`), the GitBook directory sync loop
(`walter/integrations/gitbook.py`) and the CLI error handling
(`walter/cli.py`).  Text is modelled as `List Char`; Python dictionaries of
heterogeneous values are modelled by structures carrying the string
renderings of the values the code interpolates.  Theorems at the end of the
file settle the specification claims against these definitions.
-/

/-- ASCII case table: the lower/upper pairs used by the Python functions `str.lower`,
`str.upper` and `str.title` on the ASCII range, which is the range the
inputs of the repository (format names, file stems, section keys) live in. -/
def caseTable : List (Char × Char) :=
  [(Char.ofNat 97, Char.ofNat 65), (Char.ofNat 98, Char.ofNat 66),
   (Char.ofNat 99, Char.ofNat 67), (Char.ofNat 100, Char.ofNat 68),
   (Char.ofNat 101, Char.ofNat 69), (Char.ofNat 102, Char.ofNat 70),
   (Char.ofNat 103, Char.ofNat 71), (Char.ofNat 104, Char.ofNat 72),
   (Char.ofNat 105, Char.ofNat 73), (Char.ofNat 106, Char.ofNat 74),
   (Char.ofNat 107, Char.ofNat 75), (Char.ofNat 108, Char.ofNat 76),
   (Char.ofNat 109, Char.ofNat 77), (Char.ofNat 110, Char.ofNat 78),
   (Char.ofNat 111, Char.ofNat 79), (Char.ofNat 112, Char.ofNat 80),
   (Char.ofNat 113, Char.ofNat 81), (Char.ofNat 114, Char.ofNat 82),
   (Char.ofNat 115, Char.ofNat 83), (Char.ofNat 116, Char.ofNat 84),
   (Char.ofNat 117, Char.ofNat 85), (Char.ofNat 118, Char.ofNat 86),
   (Char.ofNat 119, Char.ofNat 87), (Char.ofNat 120, Char.ofNat 88),
   (Char.ofNat 121, Char.ofNat 89), (Char.ofNat 122, Char.ofNat 90)]

/-- One character of Python `str.upper`. -/
def upChar (c : Char) : Char :=
  match caseTable.find? (fun p => p.1 = c) with
  | some p => p.2
  | none => c

/-- One character of Python `str.lower`. -/
def downChar (c : Char) : Char :=
  match caseTable.find? (fun p => p.2 = c) with
  | some p => p.1
  | none => c

/-- Whether a character is a cased (ASCII) letter, the notion the Python
function `str.title` uses to detect word boundaries. -/
def isCasedChar (c : Char) : Bool :=
  caseTable.any (fun p => p.1 = c || p.2 = c)

/-- Python `str.upper`. -/
def pyUpper (s : List Char) : List Char := s.map upChar

/-- Python `str.lower`. -/
def pyLower (s : List Char) : List Char := s.map downChar

/-- Worker for Python `str.title`: the boolean says whether the previous
character was cased (in which case a letter is lowercased, otherwise it
starts a word and is uppercased). -/
def pyTitleGo : Bool → List Char → List Char
  | _, [] => []
  | prev, c :: t =>
    (if isCasedChar c then (if prev then downChar c else upChar c) else c)
      :: pyTitleGo (isCasedChar c) t

/-- Python `str.title`. -/
def pyTitle (s : List Char) : List Char := pyTitleGo false s

/-- Python `str.strip` on the left end. -/
def lstripCh (s : List Char) : List Char := s.dropWhile Char.isWhitespace

/-- Python `str.strip` on the right end. -/
def rstripCh (s : List Char) : List Char :=
  (s.reverse.dropWhile Char.isWhitespace).reverse

/-- Python `str.strip` (both ends; stripping the two ends is independent,
so left-then-right equals the simultaneous two-ended strip of Python). -/
def pyStrip (s : List Char) : List Char := rstripCh (lstripCh s)

/-- Python `sep.join(xs)` for a list separator. -/
def joinSep (sep : List Char) : List (List Char) → List Char
  | [] => []
  | [x] => x
  | x :: y :: t => x ++ sep ++ joinSep sep (y :: t)

/-- Python `s.split(sep)` for a one-character separator: splits at every
occurrence, keeping empty pieces. -/
def splitCh (sep : Char) : List Char → List (List Char)
  | [] => [[]]
  | c :: t =>
    let r := splitCh sep t
    if c = sep then [] :: r else (c :: r.headD []) :: r.tail

/-- The newline character. -/
def nlc : Char := Char.ofNat 10

/-- The lines of a string, in the sense used to locate the headings and
underline markers the renderers emit (pieces between newline characters). -/
def linesOf (s : List Char) : List (List Char) := splitCh nlc s

/-- Whether `p` is an initial run of `s` (used to recognise marker lines). -/
def startsWithL : List Char → List Char → Bool
  | [], _ => true
  | _ :: _, [] => false
  | a :: as, b :: bs => a == b && startsWithL as bs

/-- Whether every character of the line is the given character. -/
def allEq (c : Char) (l : List Char) : Bool := l.all (fun x => x == c)

/-- Decimal rendering of a natural number, as Python `str` of an int. -/
def natChars (n : Nat) : List Char := (Nat.repr n).data

/-! String literal constants used by the embedded code. -/

/-- The markdown level-3 heading marker emitted by `format_markdown`. -/
def mdMark : List Char := "### ".data

/-- Opening h3 tag emitted by `format_html`. -/
def h3Open : List Char := "<h3>".data

/-- Closing h3 tag emitted by `format_html`. -/
def h3Close : List Char := "</h3>".data

/-- Opening paragraph tag emitted by `format_html`. -/
def pOpen : List Char := "<p>".data

/-- Closing paragraph tag emitted by `format_html`. -/
def pClose : List Char := "</p>".data

/-- The container element opening line of `format_html`
(`<div class=\x27walter-output\x27>`). -/
def divOpen : List Char := "<div class=\x27walter-output\x27>".data

/-- The container element closing line of `format_html`. -/
def divClose : List Char := "</div>".data

/-- Recognised format name for the markdown renderer. -/
def fmtMarkdown : List Char := "markdown".data

/-- Recognised format name for the HTML renderer. -/
def fmtHtml : List Char := "html".data

/-- Recognised format name for the plain-text renderer. -/
def fmtText : List Char := "text".data

/-- The equals-sign character used for plain-text underlines. -/
def eqc : Char := Char.ofNat 61

/-- An ordered mapping of named text sections (Python dict of strings,
insertion-ordered). -/
abbrev Sections := List (List Char × List Char)

/-- One section of `format_markdown`:
`f"### {title.title()}\n\n{content}\n"`. -/
def blockMd (p : List Char × List Char) : List Char :=
  mdMark ++ pyTitle p.1 ++ nlc :: nlc :: (p.2 ++ [nlc])

/-- `format_markdown` from `walter/utils/text.py`: each section becomes a
level-3 heading, blank line and body, sections joined with a newline. -/
def format_markdown (cs : Sections) : List Char :=
  joinSep [nlc] (cs.map blockMd)

/-- One section of `format_html`:
`f"<h3>{title.title()}</h3>\n<p>{content}</p>"`. -/
def blockHtml (p : List Char × List Char) : List Char :=
  h3Open ++ pyTitle p.1 ++ h3Close ++ nlc :: (pOpen ++ p.2 ++ pClose)

/-- `format_html` from `walter/utils/text.py`: heading and paragraph
elements wrapped in one container div, lines joined with a newline. -/
def format_html (cs : Sections) : List Char :=
  joinSep [nlc] (divOpen :: cs.map blockHtml ++ [divClose])

/-- One section of `format_text`:
`f"{title.upper()}\n{\x7b\x27=\x27 * len(title)\x7d}\n{content}\n"`. -/
def blockText (p : List Char × List Char) : List Char :=
  pyUpper p.1 ++ nlc :: (List.replicate p.1.length eqc ++ nlc :: (p.2 ++ [nlc]))

/-- `format_text` from `walter/utils/text.py`: upper-cased title, an
underline of `=` matching the title length, then the body. -/
def format_text (cs : Sections) : List Char :=
  joinSep [nlc] (cs.map blockText)

/-- `format_output` from `walter/utils/text.py`: the format name is
lowercased and looked up among the three renderers; a miss falls back to
`format_text` (the dictionary `.get` default). -/
def format_output (cs : Sections) (format : List Char) : List Char :=
  if pyLower format = fmtMarkdown then format_markdown cs
  else if pyLower format = fmtHtml then format_html cs
  else if pyLower format = fmtText then format_text cs
  else format_text cs

/-! Embedding of `walter/integrations/llm.py`. -/

/-- The data mapping handed to `generate_description`
(`walter/commands/describe.py` builds it).  Python dict values are
arbitrary objects; the fields record the string renderings the f-strings
interpolate.  `none` models an absent key (so `dict.get` takes its
default). -/
structure DescData where
  filename_r : List Char
  format_r : List Char
  crs_r : List Char
  stats_json_r : List Char
  feature_count : Option (List Char)
  geometry_type : Option (List (List Char))
  columns : Option (List (List Char))

/-- The default rendering Python uses for a missing `feature_count` key. -/
def strUnknown : List Char := "Unknown".data

/-- Comma-space separator of Python `", ".join(...)`. -/
def commaSp : List Char := ", ".data

/-- Template piece of `_generate_fallback_description` before the feature
count (the f-string opens with a newline and the source indentation). -/
def tplA : List Char := "\n        Dataset contains ".data

/-- Template piece between the feature count and the geometry types. -/
def tplB : List Char := " features of type ".data

/-- Template piece between the geometry types and the columns.  It carries
the interior newline and eight-space indentation of the source f-string,
which `strip()` does not remove. -/
def tplC : List Char := ".\n        Available attributes: ".data

/-- Trailing template piece removed (except its dot) by `strip()`. -/
def tplD : List Char := ".\n        ".data

/-- `LLMManager._generate_fallback_description`: fills the indented
triple-quoted f-string, then strips the two ends. -/
def generate_fallback_description (d : DescData) : List Char :=
  let feature_count := d.feature_count.getD strUnknown
  let geometry_type := joinSep commaSp (d.geometry_type.getD [strUnknown])
  let columns := joinSep commaSp (d.columns.getD [])
  pyStrip (tplA ++ feature_count ++ tplB ++ geometry_type ++ tplC ++ columns ++ tplD)

/-- The description fallback as the specification words it (one line, a
single space between the two sentences).  Defined only to compare against
`generate_fallback_description`. -/
def spec_fallback_description (d : DescData) : List Char :=
  let feature_count := d.feature_count.getD strUnknown
  let geometry_type := joinSep commaSp (d.geometry_type.getD [strUnknown])
  let columns := joinSep commaSp (d.columns.getD [])
  "Dataset contains ".data ++ feature_count ++ " features of type ".data
    ++ geometry_type ++ ". Available attributes: ".data ++ columns ++ ".".data

/-- `LLMManager._generate_fallback_tags`: the fixed constant list. -/
def generate_fallback_tags : List (List Char) :=
  ["gis".data, "spatial-data".data, "geospatial".data, "vector-data".data,
   "analysis".data]

/-- The narrative backend as seen by a constructed `LLMManager`:
the availability flag and the model call `ollama.generate` (its `Except`
error models a raised exception, carrying the message). -/
structure LLMManager where
  llm_available : Bool
  generate : List Char → Except (List Char) (List Char)

/-- `LLMManager._create_description_prompt` (content embedded verbatim up
to the modelled string renderings of the dict values). -/
def create_description_prompt (d : DescData) : List Char :=
  "\n        Generate a professional description of this GIS dataset:\n\n        Dataset Information:\n        - Name: ".data
    ++ d.filename_r
    ++ "\n        - Format: ".data ++ d.format_r
    ++ "\n        - Features: ".data ++ d.feature_count.getD "None".data
    ++ " ".data ++ pyLower (joinSep commaSp (d.geometry_type.getD []))
    ++ "\n        - CRS: ".data ++ d.crs_r
    ++ "\n        - Attributes: ".data ++ joinSep commaSp (d.columns.getD [])
    ++ "\n\n        Statistics:\n        ".data ++ d.stats_json_r
    ++ "\n\n        Write a clear, professional description that a GIS analyst would find helpful.\n        Focus on the key characteristics and potential uses of the dataset.\n        Use natural, flowing language rather than just listing facts.\n        ".data

/-- `LLMManager.generate_description`: fallback when the backend is
unavailable; otherwise call the model and strip the response, falling back
again if the call raises. -/
def generate_description (m : LLMManager) (d : DescData) : List Char :=
  if m.llm_available = false then generate_fallback_description d
  else
    match m.generate (create_description_prompt d) with
    | Except.ok r => pyStrip r
    | Except.error _ => generate_fallback_description d

/-- The prompt of `LLMManager.suggest_tags`. -/
def tag_prompt (description : List Char) (count : Nat) : List Char :=
  "\n        Based on this GIS dataset description, suggest ".data
    ++ natChars count
    ++ " relevant tags:\n\n        ".data ++ description
    ++ "\n\n        Format the tags as a comma-separated list, using lowercase and hyphens for spaces.\n        Example: urban-planning, demographics, transportation\n\n        Tags:\n        ".data

/-- Tag cleanup of the model response:
`tag.strip().lower().replace(" ", "-")`. -/
def cleanupTag (t : List Char) : List Char :=
  (pyLower (pyStrip t)).map (fun c => if c = Char.ofNat 32 then Char.ofNat 45 else c)

/-- `LLMManager.suggest_tags`: the fallback list when the backend is
unavailable (note: not truncated to `count`); otherwise split, clean and
truncate the comma-separated model response, falling back if the call
raises. -/
def suggest_tags (m : LLMManager) (description : List Char) (count : Nat) :
    List (List Char) :=
  if m.llm_available = false then generate_fallback_tags
  else
    match m.generate (tag_prompt description count) with
    | Except.ok r => ((splitCh (Char.ofNat 44) r).map cleanupTag).take count
    | Except.error _ => generate_fallback_tags

/-- The environment `LLMManager.__init__` runs in: whether `import ollama`
succeeds, whether `ollama.list()` raises, whether the configured model is
among the listed models, and whether `ollama.pull` raises. -/
structure OllamaEnv where
  import_ok : Bool
  list_raises : Bool
  model_listed : Bool
  pull_raises : Bool

/-- The relevant constructed state of an `LLMManager` object. -/
structure LLMInitState where
  llm_available : Bool
  has_client : Bool

/-- `LLMManager._ensure_model`, verbatim: it first returns early when
`llm_available` is false, otherwise lists models, pulls a missing model,
and on any exception clears `llm_available` (the exception is swallowed). -/
def ensure_model (env : OllamaEnv) (st : LLMInitState) : LLMInitState :=
  if st.llm_available = false then st
  else if env.list_raises then { st with llm_available := false }
  else if env.model_listed then st
  else if env.pull_raises then { st with llm_available := false }
  else st

/-- The one failure `__init__` can raise: `ImportError` when `require_llm`
is set and the runtime cannot be imported. -/
inductive InitError where
  | importError

/-- `LLMManager.__init__`: `llm_available` starts false, the import is
attempted, `_ensure_model()` is called (while `llm_available` is still
false), and then `llm_available` is set to true unconditionally.  Only an
ImportError under `require_llm` raises. -/
def llmmanager_init (env : OllamaEnv) (require_llm : Bool) :
    Except InitError LLMInitState :=
  let st0 : LLMInitState := { llm_available := false, has_client := false }
  if env.import_ok then
    let st1 := { st0 with has_client := true }
    let st2 := ensure_model env st1
    Except.ok { st2 with llm_available := true }
  else if require_llm then Except.error InitError.importError
  else Except.ok st0

/-! Embedding of `walter/utils/gis.py`. -/

/-- The coordinate reference system attached to a GeoDataFrame as
`get_crs_info` distinguishes it: absent (`None`), a free-text string, or a
pyproj CRS object whose `to_authority()` either yields an
authority/code pair or `None` (the lookup failing). -/
inductive PyCRS where
  | noCrs
  | strCrs (s : List Char)
  | projCrs (authority : Option (List Char × List Char))

/-- `get_crs_info` from `walter/utils/gis.py`. -/
def get_crs_info : PyCRS → List Char
  | PyCRS.noCrs => "undefined".data
  | PyCRS.strCrs s => s
  | PyCRS.projCrs a =>
    let auth_name := match a with | some p => p.1 | none => "Custom".data
    let auth_code := match a with | some p => p.2 | none => "Unknown".data
    auth_name ++ Char.ofNat 58 :: auth_code

/-- One feature of a dataset: its bounds and the area of its geometry, both in
the native CRS and after the Web-Mercator reprojection the code performs
for geographic data (areas are what the external GIS library reports;
rationals model the float values). -/
structure Feature where
  minx : ℚ
  miny : ℚ
  maxx : ℚ
  maxy : ℚ
  area_native : ℚ
  area_mercator : ℚ

/-- Whether the attached CRS reports itself geographic (degree-based). -/
structure CRSFlags where
  is_geographic : Bool

/-- A loaded spatial dataset as `get_geometry_stats` consumes it. -/
structure Dataset where
  crs : Option CRSFlags
  features : List Feature

/-- The record `get_geometry_stats` returns.  `none` models the
not-a-number sentinel the underlying libraries produce on an empty
dataset (`total_bounds` of no features, `mean` of an empty series). -/
structure GeometryStats where
  bbox : Option (ℚ × ℚ × ℚ × ℚ)
  total_area : ℚ
  mean_area : Option ℚ
  area_unit : List Char

/-- Area unit reported after reprojecting geographic data. -/
def sqMeters : List Char := "square meters".data

/-- Area unit reported for already-planar data. -/
def sqUnits : List Char := "square units".data

/-- `gdf.total_bounds`: the axis-aligned extent over all features, the
not-a-number sentinel (`none`) when there are no features. -/
def totalBounds : List Feature → Option (ℚ × ℚ × ℚ × ℚ)
  | [] => none
  | f :: t =>
    match totalBounds t with
    | none => some (f.minx, f.miny, f.maxx, f.maxy)
    | some (a, b, c, d) =>
      some (min a f.minx, min b f.miny, max c f.maxx, max d f.maxy)

/-- `Series.mean()` of the per-feature areas: the not-a-number sentinel
(`none`) on an empty series instead of a division-by-zero error. -/
def seriesMean (xs : List ℚ) : Option ℚ :=
  if xs.length = 0 then none else some (xs.sum / (xs.length : ℚ))

/-- `get_geometry_stats` from `walter/utils/gis.py`: reprojects geographic
data to Web Mercator before measuring, sums and averages the areas, and is
total — an empty dataset yields zero total area and sentinel values, not
an exception. -/
def get_geometry_stats (ds : Dataset) : GeometryStats :=
  let geographic := match ds.crs with | some c => c.is_geographic | none => false
  let areas :=
    if geographic then ds.features.map Feature.area_mercator
    else ds.features.map Feature.area_native
  { bbox := totalBounds ds.features
    total_area := areas.sum
    mean_area := seriesMean areas
    area_unit := if geographic then sqMeters else sqUnits }

/-! Embedding of `walter/integrations/gitbook.py` (`sync_directory`) and of
the title derivation it applies to each file name. -/

/-- `Path.stem`: the file name with its last dot-suffix removed (the name
itself if it has no dot). -/
def stemOf (n : List Char) : List Char :=
  if (Char.ofNat 46) ∈ n then
    ((n.reverse.dropWhile (fun c => c ≠ Char.ofNat 46)).drop 1).reverse
  else n

/-- The hyphen-to-space substitution of
`md_file.stem.replace("-", " ")`. -/
def hyphen_to_space (c : Char) : Char :=
  if c = Char.ofNat 45 then Char.ofNat 32 else c

/-- The page title `sync_directory` derives from a file stem:
`stem.replace("-", " ").title()`. -/
def page_title (stem : List Char) : List Char :=
  pyTitle (stem.map hyphen_to_space)

/-- The title derivation as the specification words it: hyphens AND
underscores converted to spaces, then title-cased.  Defined only to
compare against `page_title`. -/
def spec_page_title (stem : List Char) : List Char :=
  pyTitle (stem.map (fun c =>
    if c = Char.ofNat 45 ∨ c = Char.ofNat 95 then Char.ofNat 32 else c))

/-- A markdown file found by `source_dir.glob("**/*.md")`: its directory
components relative to the source directory, its file name, and its
content. -/
structure SrcFile where
  dirs : List (List Char)
  fname : List Char
  content : List Char

/-- The name a summary index file carries. -/
def summaryName : List Char := "SUMMARY.md".data

/-- `str(md_file.relative_to(source_dir))`. -/
def relPath (f : SrcFile) : List Char :=
  joinSep [Char.ofNat 47] (f.dirs ++ [f.fname])

/-- One entry of the list `sync_directory` returns. -/
structure PageEntry where
  title : List Char
  path : List Char
  id : Nat

/-- The externally visible actions of `sync_directory`, in order: a page
publish (a `create_page` call; the id models the id the API response
carries, numbered in call order) or the final write of the regenerated
`SUMMARY.md` into the source directory. -/
inductive SyncEvent where
  | publishPage (title : List Char) (content : List Char) (id : Nat)
  | writeSummary (pages : List PageEntry)

/-- The file loop of `sync_directory`: skip any file named `SUMMARY.md`,
publish every other file under the stem-derived title, and collect one
entry per published page. -/
def syncLoop : List SrcFile → Nat → List PageEntry × List SyncEvent
  | [], _ => ([], [])
  | f :: rest, nextId =>
    if f.fname = summaryName then syncLoop rest nextId
    else
      let t := page_title (stemOf f.fname)
      let r := syncLoop rest (nextId + 1)
      ({ title := t, path := relPath f, id := nextId } :: r.1,
       SyncEvent.publishPage t f.content nextId :: r.2)

/-- `GitBookPublisher.sync_directory`: runs the file loop over the globbed
files, then (and only then) writes the regenerated `SUMMARY.md` built from
the published pages, and returns the page entries. -/
def sync_directory (files : List SrcFile) : List PageEntry × List SyncEvent :=
  let r := syncLoop files 0
  (r.1, r.2 ++ [SyncEvent.writeSummary r.1])

/-! Embedding of the CLI command error handling (`walter/cli.py`,
`describe_data`). -/

/-- What a CLI command invocation leaves behind: the console lines it
printed, the process exit code (`typer` exits with 0 when the command
handler returns normally), and whether a raw stack trace escaped. -/
structure CliOutcome where
  printed : List (List Char)
  exit_code : Nat
  raw_traceback : Bool

/-- The `rich` markup opening of the error line the command prints. -/
def errLabel : List Char := "[red]Error:[/red] ".data

/-- The confirmation line printed when writing to an output file. -/
def savedLabel : List Char := "Description saved to: ".data

/-- `describe_data` from `walter/cli.py`: the core call is modelled by its
outcome (`Except.error` carries `str(e)` of a raised core exception).  The
handler catches every exception, prints an error line instead of a stack
trace, and returns normally — so the process exit code is 0 on both
paths. -/
def describe_data (core : Except (List Char) (List Char))
    (output : Option (List Char)) : CliOutcome :=
  match core with
  | Except.ok result =>
    match output with
    | some p => { printed := [savedLabel ++ p], exit_code := 0, raw_traceback := false }
    | none => { printed := [result], exit_code := 0, raw_traceback := false }
  | Except.error e =>
    { printed := [errLabel ++ e], exit_code := 0, raw_traceback := false }

/-! Concrete inputs used by the witnesses and counterexamples below. -/

/-- The §8 scenario data mapping: 3 point features with three columns. -/
def dSample : DescData :=
  { filename_r := "cities.geojson".data
    format_r := ".geojson".data
    crs_r := "EPSG:4326".data
    stats_json_r := [Char.ofNat 123, Char.ofNat 125]
    feature_count := some ("3".data)
    geometry_type := some ["Point".data]
    columns := some ["name".data, "population".data, "state".data] }

/-- An `LLMManager` whose probe left the backend unavailable. -/
def mOff : LLMManager :=
  { llm_available := false, generate := fun _ => Except.error [] }

/-- A small well-behaved sections mapping (two sections of plain prose). -/
def csSample : Sections :=
  [("overview".data, "hello there".data), ("spatial".data, "wide world".data)]

/-- A sections mapping whose single body smuggles an `<h3>` line into the
rendered output. -/
def csBad : Sections :=
  [("a".data, (Char.ofNat 10) :: "<h3>x".data)]

/-- An empty dataset with no CRS. -/
def dsEmpty : Dataset := { crs := none, features := [] }

/-! Marker extraction: the observable section markers in rendered output,
used to state the renderer round-trip property. -/

/-- The level-3 heading lines of a rendered string (lines opening with
`### `), in order. -/
def mdMarkers (s : List Char) : List (List Char) :=
  (linesOf s).filter (fun l => startsWithL mdMark l)

/-- The h3-element lines of a rendered string (lines opening with `<h3>`),
in order. -/
def htmlMarkers (s : List Char) : List (List Char) :=
  (linesOf s).filter (fun l => startsWithL h3Open l)

/-- The underlined title lines of a line list: every line whose successor
is a run of `=` of exactly its length, in order. -/
def underlinedTitles : List (List Char) → List (List Char)
  | a :: b :: t =>
    (if b = List.replicate a.length eqc then [a] else [])
      ++ underlinedTitles (b :: t)
  | _ => []

/-- The underlined title lines of a rendered string, in order. -/
def textMarkers (s : List Char) : List (List Char) :=
  underlinedTitles (linesOf s)

/-- Adjacent-pair condition under which a scan of `a :: m` finds no
underlined title: no element of the chain is the `=`-underline of its
predecessor. -/
def chainOk : List Char → List (List Char) → Prop
  | _, [] => True
  | a, b :: t => b ≠ List.replicate a.length eqc ∧ chainOk b t

/-- The last line of the nonempty list `a :: m`. -/
def lastOf (a : List Char) : List (List Char) → List Char
  | [] => a
  | b :: t => lastOf b t

/-! Helper lemmas: characters and case mapping. -/

theorem upChar_cases (c : Char) : upChar c = c ∨ (c, upChar c) ∈ caseTable := by
  unfold upChar
  cases h : caseTable.find? (fun p => p.1 = c) with
  | none => exact Or.inl rfl
  | some p =>
    right
    have hmem := List.mem_of_find?_eq_some h
    have hp := List.find?_some h
    have : p.1 = c := by simpa using hp
    simpa [← this] using hmem

theorem downChar_cases (c : Char) : downChar c = c ∨ (downChar c, c) ∈ caseTable := by
  unfold downChar
  cases h : caseTable.find? (fun p => p.2 = c) with
  | none => exact Or.inl rfl
  | some p =>
    right
    have hmem := List.mem_of_find?_eq_some h
    have hp := List.find?_some h
    have : p.2 = c := by simpa using hp
    simpa [← this] using hmem

theorem upChar_ne_of_not_letter (c d : Char) (hc : c ≠ d)
    (hd : ∀ p ∈ caseTable, p.2 ≠ d) : upChar c ≠ d := by
  rcases upChar_cases c with h | h
  · simpa [h] using hc
  · exact hd _ h

theorem downChar_ne_of_not_letter (c d : Char) (hc : c ≠ d)
    (hd : ∀ p ∈ caseTable, p.1 ≠ d) : downChar c ≠ d := by
  rcases downChar_cases c with h | h
  · simpa [h] using hc
  · exact hd _ h

theorem length_pyUpper (s : List Char) : (pyUpper s).length = s.length := by
  simp [pyUpper]

theorem length_pyTitleGo (b : Bool) (s : List Char) :
    (pyTitleGo b s).length = s.length := by
  induction s generalizing b with
  | nil => rfl
  | cons c t ih => simp [pyTitleGo, ih]

theorem mem_pyTitleGo (b : Bool) (s : List Char) (d : Char)
    (hd : d ∈ pyTitleGo b s) :
    ∃ c ∈ s, d = c ∨ d = upChar c ∨ d = downChar c := by
  induction s generalizing b with
  | nil => simp [pyTitleGo] at hd
  | cons c t ih =>
    simp only [pyTitleGo, List.mem_cons] at hd
    rcases hd with hd | hd
    · refine ⟨c, by simp, ?_⟩
      by_cases h1 : isCasedChar c <;> by_cases h2 : b <;>
        simp [h1, h2] at hd <;> simp [hd]
    · obtain ⟨e, he, hor⟩ := ih _ hd
      exact ⟨e, by simp [he], hor⟩

theorem pyTitle_no_newline (s : List Char) (h : ∀ c ∈ s, c ≠ nlc) :
    ∀ d ∈ pyTitle s, d ≠ nlc := by
  intro d hd
  obtain ⟨c, hc, hor⟩ := mem_pyTitleGo false s d hd
  have hcne := h c hc
  rcases hor with rfl | rfl | rfl
  · exact hcne
  · exact upChar_ne_of_not_letter c nlc hcne (by decide)
  · exact downChar_ne_of_not_letter c nlc hcne (by decide)

theorem pyUpper_no_newline (s : List Char) (h : ∀ c ∈ s, c ≠ nlc) :
    ∀ d ∈ pyUpper s, d ≠ nlc := by
  intro d hd
  simp only [pyUpper, List.mem_map] at hd
  obtain ⟨c, hc, rfl⟩ := hd
  exact upChar_ne_of_not_letter c nlc (h c hc) (by decide)

/-! Helper lemmas: splitting into lines. -/

theorem splitCh_ne_nil (sep : Char) (s : List Char) : splitCh sep s ≠ [] := by
  induction s with
  | nil => simp [splitCh]
  | cons c t ih => by_cases h : c = sep <;> simp [splitCh, h]

theorem splitCh_append_sep (sep : Char) (a b : List Char) :
    splitCh sep (a ++ sep :: b) = splitCh sep a ++ splitCh sep b := by
  induction a with
  | nil => simp [splitCh]
  | cons c t ih =>
    by_cases h : c = sep
    · simp [splitCh, h, ih]
    · obtain ⟨h0, r, hr⟩ := List.exists_cons_of_ne_nil (splitCh_ne_nil sep t)
      simp [splitCh, h, ih, hr]

theorem splitCh_no_sep (sep : Char) (s : List Char) (h : ∀ c ∈ s, c ≠ sep) :
    splitCh sep s = [s] := by
  induction s with
  | nil => rfl
  | cons c t ih =>
    have hc : c ≠ sep := h c (by simp)
    have ht : splitCh sep t = [t] := ih (fun x hx => h x (by simp [hx]))
    simp [splitCh, hc, ht]

theorem linesOf_append_nl (a b : List Char) :
    linesOf (a ++ nlc :: b) = linesOf a ++ linesOf b :=
  splitCh_append_sep nlc a b

theorem linesOf_no_nl (s : List Char) (h : ∀ c ∈ s, c ≠ nlc) :
    linesOf s = [s] :=
  splitCh_no_sep nlc s h

/-! Helper lemmas: marker-line recognition. -/

theorem startsWithL_append_self (p s : List Char) :
    startsWithL p (p ++ s) = true := by
  induction p with
  | nil => rfl
  | cons a as ih => simp [startsWithL, ih]

theorem startsWithL_of_le_length (p l s : List Char) (h : p.length ≤ l.length) :
    startsWithL p (l ++ s) = startsWithL p l := by
  induction p generalizing l with
  | nil => rfl
  | cons a as ih =>
    cases l with
    | nil => simp at h
    | cons b bs =>
      simp only [List.cons_append, startsWithL, List.append_eq]
      rw [ih bs (by simpa using h)]

theorem linesOf_left_ext (X s : List Char) (h : ∀ c ∈ X, c ≠ nlc) :
    ∃ h0 t, linesOf s = h0 :: t ∧ linesOf (X ++ s) = (X ++ h0) :: t := by
  induction X with
  | nil =>
    obtain ⟨h0, t, ht⟩ := List.exists_cons_of_ne_nil (splitCh_ne_nil nlc s)
    exact ⟨h0, t, ht, by simpa using ht⟩
  | cons c X ih =>
    obtain ⟨h0, t, ht, hxt⟩ := ih (fun x hx => h x (by simp [hx]))
    have hc : c ≠ nlc := h c (by simp)
    refine ⟨h0, t, ht, ?_⟩
    have hxt' : splitCh nlc (X ++ s) = (X ++ h0) :: t := hxt
    simp [linesOf, splitCh, hc, hxt']


theorem linesOf_right_ext (Y s : List Char) (hY : ∀ c ∈ Y, c ≠ nlc) :
    ∃ i lS, linesOf s = i ++ [lS] ∧ linesOf (s ++ Y) = i ++ [lS ++ Y] := by
  induction s with
  | nil =>
    exact ⟨[], [], by simp [linesOf, splitCh], by simpa using linesOf_no_nl Y hY⟩
  | cons c s ih =>
    obtain ⟨i, lS, hs, hsy⟩ := ih
    by_cases hc : c = nlc
    · subst hc
      have h1 : linesOf (nlc :: s) = [] :: linesOf s := by simp [linesOf, splitCh]
      have h2 : linesOf (nlc :: (s ++ Y)) = [] :: linesOf (s ++ Y) := by
        simp [linesOf, splitCh]
      exact ⟨[] :: i, lS, by simp [h1, hs], by simp [h2, hsy]⟩
    · cases i with
      | nil =>
        refine ⟨[], c :: lS, ?_, ?_⟩
        · simp only [List.nil_append] at hs
          simp [linesOf, splitCh, hc, show splitCh nlc s = [lS] from hs]
        · simp only [List.nil_append] at hsy
          simp [linesOf, splitCh, hc, show splitCh nlc (s ++ Y) = [lS ++ Y] from hsy]
      | cons i0 irest =>
        refine ⟨(c :: i0) :: irest, lS, ?_, ?_⟩
        · simp [linesOf, splitCh, hc, show splitCh nlc s = i0 :: (irest ++ [lS]) by simpa using hs]
        · simp [linesOf, splitCh, hc,
            show splitCh nlc (s ++ Y) = i0 :: (irest ++ [lS ++ Y]) by simpa using hsy]

theorem lastOf_append_last (a x : List Char) (m : List (List Char)) :
    lastOf a (m ++ [x]) = x := by
  induction m generalizing a with
  | nil => rfl
  | cons b t ih => simpa [lastOf] using ih b

theorem underlinedTitles_skip_chain (m : List (List Char)) (a : List Char)
    (R : List (List Char)) (h : chainOk a m) :
    underlinedTitles (a :: m ++ R) = underlinedTitles (lastOf a m :: R) := by
  induction m generalizing a with
  | nil => rfl
  | cons b t ih =>
    obtain ⟨hb, ht⟩ := h
    simpa [underlinedTitles, hb, lastOf] using ih b ht

theorem underlinedTitles_cons_empty (h0 : List Char) (t : List (List Char))
    (h : h0 ≠ []) :
    underlinedTitles ([] :: h0 :: t) = underlinedTitles (h0 :: t) := by
  have h2 : h0 ≠ List.replicate ([] : List Char).length eqc := by simpa using h
  simp only [underlinedTitles, List.length_nil, List.replicate_zero]
  simp [h]

theorem filter_false_of_mem (p : List Char → Bool) (l : List (List Char))
    (h : ∀ a ∈ l, p a = false) : l.filter p = [] := by
  rw [List.filter_eq_nil_iff]
  intro a ha
  simp [h a ha]

theorem allEq_replicate (c : Char) (n : Nat) :
    allEq c (List.replicate n c) = true := by
  induction n with
  | zero => rfl
  | succ k ih => simp [allEq, List.replicate_succ, List.all_cons, ih]

theorem clean_ne_replicate (l : List Char) (h1 : l ≠ [])
    (h2 : allEq eqc l = false) (n : Nat) : l ≠ List.replicate n eqc := by
  intro he
  cases n with
  | zero => simp [he] at h1
  | succ k =>
    rw [he] at h2
    rw [allEq_replicate] at h2
    simp at h2

theorem chainOk_of_clean (m : List (List Char))
    (hm : ∀ l ∈ m, l ≠ [] ∧ allEq eqc l = false) :
    ∀ a : List Char, a ≠ [] → chainOk a (m ++ [[]]) := by
  induction m with
  | nil =>
    intro a ha
    refine ⟨?_, trivial⟩
    intro he
    have : List.replicate a.length eqc ≠ [] := by
      simpa [List.replicate_eq_nil_iff] using ha
    exact this he.symm
  | cons b t ih =>
    intro a _
    obtain ⟨hb1, hb2⟩ := hm b (by simp)
    refine ⟨clean_ne_replicate b hb1 hb2 a.length, ?_⟩
    exact ih (fun l hl => hm l (by simp [hl])) b hb1

/-! Helper lemmas: line structure of the rendered blocks. -/

theorem linesOf_nil : linesOf [] = [[]] := rfl

theorem linesOf_cons_nl (X : List Char) : linesOf (nlc :: X) = [] :: linesOf X := by
  have h := linesOf_append_nl [] X
  simpa [linesOf_nil] using h

theorem linesOf_append_single_nl (X : List Char) :
    linesOf (X ++ [nlc]) = linesOf X ++ [[]] := by
  have h := linesOf_append_nl X []
  simpa [linesOf_nil] using h

theorem mdMark_no_nl : ∀ c ∈ mdMark, c ≠ nlc := by decide

theorem linesOf_blockMd (p : List Char × List Char) (hk : ∀ c ∈ p.1, c ≠ nlc) :
    linesOf (blockMd p) = (mdMark ++ pyTitle p.1) :: [] :: (linesOf p.2 ++ [[]]) := by
  have hA : ∀ c ∈ mdMark ++ pyTitle p.1, c ≠ nlc := by
    intro c hc
    rcases List.mem_append.mp hc with h | h
    · exact mdMark_no_nl c h
    · exact pyTitle_no_newline p.1 hk c h
  have h1 : blockMd p = (mdMark ++ pyTitle p.1) ++ nlc :: (nlc :: (p.2 ++ [nlc])) := by
    simp [blockMd]
  rw [h1, linesOf_append_nl, linesOf_no_nl _ hA, linesOf_cons_nl,
    linesOf_append_single_nl]
  simp

theorem h3_wrap_no_nl : ∀ c ∈ h3Open ++ h3Close, c ≠ nlc := by decide

theorem linesOf_blockHtml (p : List Char × List Char) (hk : ∀ c ∈ p.1, c ≠ nlc) :
    linesOf (blockHtml p) =
      (h3Open ++ pyTitle p.1 ++ h3Close) :: linesOf (pOpen ++ p.2 ++ pClose) := by
  have hA : ∀ c ∈ h3Open ++ pyTitle p.1 ++ h3Close, c ≠ nlc := by
    intro c hc
    rcases List.mem_append.mp hc with h | h
    · rcases List.mem_append.mp h with h2 | h2
      · exact h3_wrap_no_nl c (List.mem_append.mpr (Or.inl h2))
      · exact pyTitle_no_newline p.1 hk c h2
    · exact h3_wrap_no_nl c (List.mem_append.mpr (Or.inr h))
  have h1 : blockHtml p =
      (h3Open ++ pyTitle p.1 ++ h3Close) ++ nlc :: (pOpen ++ p.2 ++ pClose) := by
    simp [blockHtml]
  rw [h1, linesOf_append_nl, linesOf_no_nl _ hA]
  simp

theorem eqc_ne_nl (n : Nat) : ∀ c ∈ List.replicate n eqc, c ≠ nlc := by
  intro c hc
  rw [List.eq_of_mem_replicate hc]
  decide

theorem linesOf_blockText (p : List Char × List Char) (hk : ∀ c ∈ p.1, c ≠ nlc) :
    linesOf (blockText p) =
      pyUpper p.1 :: List.replicate p.1.length eqc :: (linesOf p.2 ++ [[]]) := by
  have h1 : blockText p =
      pyUpper p.1 ++ nlc :: (List.replicate p.1.length eqc ++ nlc :: (p.2 ++ [nlc])) := by
    simp [blockText]
  rw [h1, linesOf_append_nl, linesOf_no_nl _ (pyUpper_no_newline p.1 hk),
    linesOf_append_nl, linesOf_no_nl _ (eqc_ne_nl p.1.length),
    linesOf_append_single_nl]
  simp

/-! Helper lemmas: no spurious `<h3>` marker can arise from the paragraph
wrapping of a section body. -/

theorem no_h3_pOpen (x : List Char) : startsWithL h3Open (pOpen ++ x) = false := by
  have h3 : h3Open = ['<', 'h', '3', '>'] := by decide
  have hp : pOpen = ['<', 'p', '>'] := by decide
  have e1 : (('h' : Char) == 'p') = false := by decide
  rw [h3, hp]
  simp [startsWithL, e1]

theorem no_h3_append_pClose (l : List Char) (hl : startsWithL h3Open l = false) :
    startsWithL h3Open (l ++ pClose) = false := by
  have h3 : h3Open = ['<', 'h', '3', '>'] := by decide
  have hp : pClose = ['<', '/', 'p', '>'] := by decide
  rcases l with _ | ⟨a, _ | ⟨b, _ | ⟨c, _ | ⟨d, t⟩⟩⟩⟩
  · decide
  · have e1 : (('h' : Char) == '<') = false := by decide
    rw [h3, hp]
    simp [startsWithL, e1]
  · have e1 : (('3' : Char) == '<') = false := by decide
    rw [h3, hp]
    simp [startsWithL, e1]
  · have e1 : (('>' : Char) == '<') = false := by decide
    rw [h3, hp]
    simp [startsWithL, e1]
  · rw [startsWithL_of_le_length h3Open (a :: b :: c :: d :: t) pClose (by simp [h3])]
    exact hl

theorem par_lines_no_h3 (v : List Char)
    (hv : ∀ l ∈ linesOf v, startsWithL h3Open l = false) :
    ∀ l ∈ linesOf (pOpen ++ v ++ pClose), startsWithL h3Open l = false := by
  have hpc : ∀ c ∈ pClose, c ≠ nlc := by decide
  have hpo : ∀ c ∈ pOpen, c ≠ nlc := by decide
  obtain ⟨h0, t, hvt, hxt⟩ := linesOf_left_ext pOpen (v ++ pClose) hpo
  obtain ⟨i, lS, hv1, hv2⟩ := linesOf_right_ext pClose v hpc
  intro l hl
  rw [List.append_assoc, hxt] at hl
  rcases List.mem_cons.mp hl with rfl | hl
  · exact no_h3_pOpen h0
  · have hl2 : l ∈ h0 :: t := List.mem_cons_of_mem h0 hl
    rw [← hvt, hv2] at hl2
    rcases List.mem_append.mp hl2 with hi | hlast
    · exact hv l (by rw [hv1]; exact List.mem_append_left _ hi)
    · have : l = lS ++ pClose := by simpa using hlast
      subst this
      exact no_h3_append_pClose lS
        (hv lS (by rw [hv1]; exact List.mem_append_right _ (by simp)))

/-! Helper lemmas: per-section marker content. -/

theorem filter_blockMd (p : List Char × List Char) (hk : ∀ c ∈ p.1, c ≠ nlc)
    (hv : ∀ l ∈ linesOf p.2, startsWithL mdMark l = false) :
    (linesOf (blockMd p)).filter (fun l => startsWithL mdMark l)
      = [mdMark ++ pyTitle p.1] := by
  rw [linesOf_blockMd p hk]
  have h1 : startsWithL mdMark (mdMark ++ pyTitle p.1) = true :=
    startsWithL_append_self mdMark (pyTitle p.1)
  have h2 : startsWithL mdMark ([] : List Char) = false := by decide
  simp only [List.filter_cons, h1, h2, List.filter_append, if_true, if_false]
  rw [filter_false_of_mem _ _ hv]
  simp [h2]

theorem filter_blockHtml (p : List Char × List Char) (hk : ∀ c ∈ p.1, c ≠ nlc)
    (hv : ∀ l ∈ linesOf p.2, startsWithL h3Open l = false) :
    (linesOf (blockHtml p)).filter (fun l => startsWithL h3Open l)
      = [h3Open ++ pyTitle p.1 ++ h3Close] := by
  rw [linesOf_blockHtml p hk]
  have h1 : startsWithL h3Open (h3Open ++ pyTitle p.1 ++ h3Close) = true := by
    rw [List.append_assoc]
    exact startsWithL_append_self h3Open (pyTitle p.1 ++ h3Close)
  simp only [List.filter_cons, h1, if_true]
  rw [filter_false_of_mem _ _ (par_lines_no_h3 p.2 hv)]

/-! Helper lemmas: markers of whole rendered documents. -/

theorem format_markdown_cons₂ (p q : List Char × List Char) (rest : Sections) :
    format_markdown (p :: q :: rest) = blockMd p ++ nlc :: format_markdown (q :: rest) := by
  simp [format_markdown, joinSep, List.append_assoc]

theorem mdMarkers_render (cs : Sections)
    (hk : ∀ p ∈ cs, ∀ c ∈ p.1, c ≠ nlc)
    (hv : ∀ p ∈ cs, ∀ l ∈ linesOf p.2, startsWithL mdMark l = false) :
    mdMarkers (format_markdown cs) = cs.map (fun p => mdMark ++ pyTitle p.1) := by
  induction cs with
  | nil =>
    have h2 : startsWithL mdMark ([] : List Char) = false := by decide
    simp [mdMarkers, format_markdown, joinSep, linesOf_nil, h2]
  | cons p rest ih =>
    cases rest with
    | nil =>
      have hft : format_markdown [p] = blockMd p := by simp [format_markdown, joinSep]
      rw [mdMarkers, hft, filter_blockMd p (hk p (by simp)) (hv p (by simp))]
      simp
    | cons q rest2 =>
      rw [mdMarkers, format_markdown_cons₂, linesOf_append_nl, List.filter_append,
        filter_blockMd p (hk p (by simp)) (hv p (by simp))]
      have ih2 := ih (fun r hr => hk r (by simp [hr])) (fun r hr => hv r (by simp [hr]))
      rw [mdMarkers] at ih2
      rw [ih2]
      simp

theorem html_tail_filter (cs : Sections)
    (hk : ∀ p ∈ cs, ∀ c ∈ p.1, c ≠ nlc)
    (hv : ∀ p ∈ cs, ∀ l ∈ linesOf p.2, startsWithL h3Open l = false) :
    (linesOf (joinSep [nlc] (cs.map blockHtml ++ [divClose]))).filter
        (fun l => startsWithL h3Open l)
      = cs.map (fun p => h3Open ++ pyTitle p.1 ++ h3Close) := by
  induction cs with
  | nil =>
    have h1 : linesOf divClose = [divClose] := linesOf_no_nl _ (by decide)
    have h2 : startsWithL h3Open divClose = false := by decide
    simp [joinSep, h1, h2]
  | cons p rest ih =>
    obtain ⟨y, t2, hyt⟩ := List.exists_cons_of_ne_nil
      (show rest.map blockHtml ++ [divClose] ≠ [] by simp)
    have hj : joinSep [nlc] ((p :: rest).map blockHtml ++ [divClose])
        = blockHtml p ++ nlc :: joinSep [nlc] (rest.map blockHtml ++ [divClose]) := by
      simp only [List.map_cons, List.cons_append, hyt]
      simp [joinSep, List.append_assoc]
    rw [hj, linesOf_append_nl, List.filter_append,
      filter_blockHtml p (hk p (by simp)) (hv p (by simp)),
      ih (fun r hr => hk r (by simp [hr])) (fun r hr => hv r (by simp [hr]))]
    simp

theorem joinSep_cons_of_ne_nil (sep x : List Char) (t : List (List Char))
    (h : t ≠ []) : joinSep sep (x :: t) = x ++ sep ++ joinSep sep t := by
  obtain ⟨y, t2, rfl⟩ := List.exists_cons_of_ne_nil h
  rfl

theorem htmlMarkers_render (cs : Sections)
    (hk : ∀ p ∈ cs, ∀ c ∈ p.1, c ≠ nlc)
    (hv : ∀ p ∈ cs, ∀ l ∈ linesOf p.2, startsWithL h3Open l = false) :
    htmlMarkers (format_html cs) = cs.map (fun p => h3Open ++ pyTitle p.1 ++ h3Close) := by
  have hj : format_html cs
      = divOpen ++ nlc :: joinSep [nlc] (cs.map blockHtml ++ [divClose]) := by
    unfold format_html
    rw [List.cons_append, joinSep_cons_of_ne_nil [nlc] divOpen _ (by simp)]
    simp [List.append_assoc]
  have hd1 : linesOf divOpen = [divOpen] := linesOf_no_nl _ (by decide)
  have hd2 : startsWithL h3Open divOpen = false := by decide
  rw [htmlMarkers, hj, linesOf_append_nl, List.filter_append, hd1,
    html_tail_filter cs hk hv]
  simp [hd2]

theorem underlinedTitles_cons_match (a : List Char) (t : List (List Char)) :
    underlinedTitles (a :: List.replicate a.length eqc :: t)
      = a :: underlinedTitles (List.replicate a.length eqc :: t) := by
  simp [underlinedTitles]

theorem format_text_cons₂ (p q : List Char × List Char) (rest : Sections) :
    format_text (p :: q :: rest) = blockText p ++ nlc :: format_text (q :: rest) := by
  simp [format_text, joinSep, List.append_assoc]

theorem linesOf_format_text_head (q : List Char × List Char) (rest : Sections)
    (hkq : ∀ c ∈ q.1, c ≠ nlc) :
    ∃ t2, linesOf (format_text (q :: rest)) = pyUpper q.1 :: t2 := by
  cases rest with
  | nil =>
    have hft : format_text [q] = blockText q := by simp [format_text, joinSep]
    rw [hft, linesOf_blockText q hkq]
    exact ⟨_, rfl⟩
  | cons r rest2 =>
    rw [format_text_cons₂, linesOf_append_nl, linesOf_blockText q hkq]
    simp only [List.cons_append]
    exact ⟨_, rfl⟩

theorem textMarkers_render (cs : Sections)
    (hk : ∀ p ∈ cs, ∀ c ∈ p.1, c ≠ nlc)
    (hk2 : ∀ p ∈ cs, p.1 ≠ [])
    (hv : ∀ p ∈ cs, ∀ l ∈ linesOf p.2, l ≠ [] ∧ allEq eqc l = false) :
    textMarkers (format_text cs) = cs.map (fun p => pyUpper p.1) := by
  induction cs with
  | nil => simp [textMarkers, format_text, joinSep, linesOf_nil, underlinedTitles]
  | cons p rest ih =>
    have hUl : (pyUpper p.1).length = p.1.length := length_pyUpper p.1
    have hrep : List.replicate p.1.length eqc
        = List.replicate (pyUpper p.1).length eqc := by rw [hUl]
    have hEne : List.replicate p.1.length eqc ≠ [] := by
      rw [Ne, List.replicate_eq_nil_iff]
      intro h
      exact hk2 p (by simp) (List.length_eq_zero.mp h)
    have hchain : chainOk (List.replicate p.1.length eqc) (linesOf p.2 ++ [[]]) :=
      chainOk_of_clean (linesOf p.2) (hv p (by simp)) _ hEne
    cases rest with
    | nil =>
      have hft : format_text [p] = blockText p := by simp [format_text, joinSep]
      rw [textMarkers, hft, linesOf_blockText p (hk p (by simp))]
      rw [hrep, underlinedTitles_cons_match, ← hrep]
      have hskip := underlinedTitles_skip_chain (linesOf p.2 ++ [[]])
        (List.replicate p.1.length eqc) [] hchain
      rw [List.append_nil] at hskip
      rw [hskip, lastOf_append_last]
      simp [underlinedTitles]
    | cons q rest2 =>
      obtain ⟨t2, ht2⟩ := linesOf_format_text_head q rest2 (hk q (by simp))
      have hUqne : pyUpper q.1 ≠ [] := by
        intro h
        have hlen := congrArg List.length h
        rw [length_pyUpper] at hlen
        exact hk2 q (by simp) (List.length_eq_zero.mp (by simpa using hlen))
      rw [textMarkers, format_text_cons₂, linesOf_append_nl,
        linesOf_blockText p (hk p (by simp))]
      simp only [List.cons_append]
      rw [hrep, underlinedTitles_cons_match, ← hrep]
      have hskip := underlinedTitles_skip_chain (linesOf p.2 ++ [[]])
        (List.replicate p.1.length eqc) (linesOf (format_text (q :: rest2))) hchain
      simp only [List.cons_append] at hskip
      rw [hskip, lastOf_append_last]
      rw [ht2, underlinedTitles_cons_empty (pyUpper q.1) t2 hUqne, ← ht2]
      have ih2 := ih (fun r hr => hk r (by simp [hr])) (fun r hr => hk2 r (by simp [hr]))
        (fun r hr => hv r (by simp [hr]))
      rw [textMarkers] at ih2
      rw [ih2]
      simp

/-! Helper lemmas: `strip()` of the fallback description template. -/

theorem dropWhile_append_of_ne_nil (p : Char → Bool) (a b : List Char)
    (h : a.dropWhile p ≠ []) : (a ++ b).dropWhile p = a.dropWhile p ++ b := by
  induction a with
  | nil => simp [List.dropWhile] at h
  | cons c t ih =>
    by_cases hc : p c
    · rw [List.cons_append, List.dropWhile_cons_of_pos hc,
        List.dropWhile_cons_of_pos hc]
      exact ih (by rwa [List.dropWhile_cons_of_pos hc] at h)
    · rw [List.cons_append, List.dropWhile_cons_of_neg (by simpa using hc),
        List.dropWhile_cons_of_neg (by simpa using hc), List.cons_append]

theorem lstrip_tplA (X : List Char) :
    lstripCh (tplA ++ X) = "Dataset contains ".data ++ X := by
  have h1 : tplA.dropWhile Char.isWhitespace = "Dataset contains ".data := by decide
  have h2 : tplA.dropWhile Char.isWhitespace ≠ [] := by decide
  rw [lstripCh, dropWhile_append_of_ne_nil Char.isWhitespace tplA X h2, h1]

theorem rstrip_tplD (A : List Char) :
    rstripCh (A ++ tplD) = A ++ [Char.ofNat 46] := by
  have h1 : tplD.reverse.dropWhile Char.isWhitespace = [Char.ofNat 46] := by decide
  have h2 : tplD.reverse.dropWhile Char.isWhitespace ≠ [] := by decide
  rw [rstripCh, List.reverse_append,
    dropWhile_append_of_ne_nil Char.isWhitespace tplD.reverse A.reverse h2, h1]
  simp

/-! Helper lemmas: character counts through the title derivation. -/

theorem pyTitle_avoids (s : List Char) (d : Char)
    (hd1 : ∀ p ∈ caseTable, p.2 ≠ d) (hd2 : ∀ p ∈ caseTable, p.1 ≠ d)
    (h : ∀ c ∈ s, c ≠ d) : ∀ x ∈ pyTitle s, x ≠ d := by
  intro x hx
  obtain ⟨c, hc, hor⟩ := mem_pyTitleGo false s x hx
  rcases hor with rfl | rfl | rfl
  · exact h _ hc
  · exact upChar_ne_of_not_letter _ d (h _ hc) hd1
  · exact downChar_ne_of_not_letter _ d (h _ hc) hd2

theorem isCasedChar_ne (c d : Char) (hc : isCasedChar c = true)
    (hd : ∀ p ∈ caseTable, p.1 ≠ d ∧ p.2 ≠ d) : c ≠ d := by
  rw [isCasedChar, List.any_eq_true] at hc
  obtain ⟨p, hp, hor⟩ := hc
  rcases Bool.or_eq_true_iff.mp hor with h | h
  · rw [← of_decide_eq_true h]
    exact (hd p hp).1
  · rw [← of_decide_eq_true h]
    exact (hd p hp).2

theorem usc_facts : ∀ p ∈ caseTable, p.1 ≠ Char.ofNat 95 ∧ p.2 ≠ Char.ofNat 95 := by
  decide

theorem pyTitleGo_count_usc (b : Bool) (s : List Char) :
    (pyTitleGo b s).count (Char.ofNat 95) = s.count (Char.ofNat 95) := by
  induction s generalizing b with
  | nil => rfl
  | cons c t ih =>
    rw [pyTitleGo, List.count_cons, List.count_cons, ih]
    congr 1
    by_cases hc : isCasedChar c
    · have hcu : c ≠ Char.ofNat 95 := isCasedChar_ne c _ hc usc_facts
      have h1 : upChar c ≠ Char.ofNat 95 :=
        upChar_ne_of_not_letter c _ hcu (fun p hp => (usc_facts p hp).2)
      have h2 : downChar c ≠ Char.ofNat 95 :=
        downChar_ne_of_not_letter c _ hcu (fun p hp => (usc_facts p hp).1)
      by_cases hb : b <;> simp [hc, hb, h1, h2, hcu]
    · simp [hc]

theorem count_map_hyphen_usc (s : List Char) :
    (s.map hyphen_to_space).count (Char.ofNat 95) = s.count (Char.ofNat 95) := by
  induction s with
  | nil => rfl
  | cons c t ih =>
    rw [List.map_cons, List.count_cons, List.count_cons, ih]
    congr 1
    by_cases hc : c = Char.ofNat 45
    · subst hc
      simp [hyphen_to_space]
    · simp [hyphen_to_space, hc]

/-! Helper lemma: the sync loop in closed form. -/

theorem syncLoop_spec (files : List SrcFile) (i : Nat) :
    syncLoop files i =
      (((files.filter (fun f => f.fname ≠ summaryName)).zip
          (List.range' i (files.filter (fun f => f.fname ≠ summaryName)).length)).map
          (fun q =>
            { title := page_title (stemOf q.1.fname), path := relPath q.1,
              id := q.2 : PageEntry }),
       ((files.filter (fun f => f.fname ≠ summaryName)).zip
          (List.range' i (files.filter (fun f => f.fname ≠ summaryName)).length)).map
          (fun q => SyncEvent.publishPage (page_title (stemOf q.1.fname)) q.1.content q.2)) := by
  induction files generalizing i with
  | nil => simp [syncLoop]
  | cons f rest ih =>
    by_cases hf : f.fname = summaryName
    · simp [syncLoop, hf, ih i]
    · simp [syncLoop, hf, List.filter_cons, List.range'_succ, ih (i + 1)]

/-! Claim theorems. -/

theorem pyStrip_template (X1 X2 X3 : List Char) :
    pyStrip (tplA ++ X1 ++ tplB ++ X2 ++ tplC ++ X3 ++ tplD)
      = "Dataset contains ".data ++ X1 ++ tplB ++ X2 ++ tplC ++ X3
          ++ [Char.ofNat 46] := by
  rw [pyStrip]
  have h1 : tplA ++ X1 ++ tplB ++ X2 ++ tplC ++ X3 ++ tplD
      = tplA ++ (X1 ++ tplB ++ X2 ++ tplC ++ X3 ++ tplD) := by
    simp [List.append_assoc]
  rw [h1, lstrip_tplA]
  have h2 : "Dataset contains ".data ++ (X1 ++ tplB ++ X2 ++ tplC ++ X3 ++ tplD)
      = ("Dataset contains ".data ++ X1 ++ tplB ++ X2 ++ tplC ++ X3) ++ tplD := by
    simp [List.append_assoc]
  rw [h2, rstrip_tplD]

/-- C1 (counterexample): for the §8 scenario input, the fallback
description the code returns is not the one-line string of the claim — it
keeps the interior newline of the f-string and indentation between the two
sentences. -/
theorem fallback_description_breaks_line :
    generate_description mOff dSample ≠ spec_fallback_description dSample
    ∧ nlc ∈ generate_description mOff dSample := by
  exact ⟨by decide, by decide⟩

/-- C1 (amended): with the backend unavailable, `generate_description`
returns, for every input mapping, exactly the template filled with the
feature count (default `Unknown`), the comma-joined geometry types
(default `Unknown`) and the comma-joined columns (default empty) — with a
newline and eight spaces of source indentation between the two sentences,
not a single space. -/
theorem generate_description_fallback_template (m : LLMManager) (d : DescData)
    (h : m.llm_available = false) :
    generate_description m d
      = "Dataset contains ".data ++ d.feature_count.getD strUnknown
        ++ " features of type ".data
        ++ joinSep commaSp (d.geometry_type.getD [strUnknown])
        ++ ".\n        Available attributes: ".data
        ++ joinSep commaSp (d.columns.getD []) ++ ".".data := by
  rw [generate_description, if_pos h, generate_fallback_description]
  rw [pyStrip_template]
  rfl

/-- C1 (witness): the amended template theorem evaluated on the §8
scenario data. -/
theorem generate_description_fallback_template_witness :
    generate_description mOff dSample
      = "Dataset contains 3 features of type Point.\n        Available attributes: name, population, state.".data := by
  rw [generate_description_fallback_template mOff dSample (by decide)]
  decide

/-- C2 (code evaluation): with the runtime importable but the model
listing raising, construction succeeds AND leaves `llm_available = true`:
the probe is guarded by the very flag it is meant to set (`_ensure_model`
returns immediately because `llm_available` is still false), and
`__init__` then sets the flag unconditionally — so a failed probe cannot
disable the LLM path, contrary to the claim. -/
theorem llm_init_probe_failure_leaves_llm_enabled :
    llmmanager_init
        { import_ok := true, list_raises := true, model_listed := false,
          pull_raises := true } false
      = Except.ok { llm_available := true, has_client := true }
    ∧ ensure_model
        { import_ok := true, list_raises := true, model_listed := false,
          pull_raises := true }
        { llm_available := false, has_client := true }
      = { llm_available := false, has_client := true } := by
  exact ⟨rfl, rfl⟩

/-- C3 (confirmed): `get_crs_info` is total by construction and returns
`undefined` with no reference system, the identifier verbatim for a
free-text system, `AUTHORITY:CODE` for a registry pair, and
`Custom:Unknown` when the authority lookup yields nothing. -/
theorem get_crs_info_total_cases :
    get_crs_info PyCRS.noCrs = "undefined".data
    ∧ (∀ s, get_crs_info (PyCRS.strCrs s) = s)
    ∧ (∀ a c, get_crs_info (PyCRS.projCrs (some (a, c)))
        = a ++ Char.ofNat 58 :: c)
    ∧ get_crs_info (PyCRS.projCrs none) = "Custom:Unknown".data := by
  exact ⟨rfl, fun s => rfl, fun a c => rfl, by decide⟩

/-- C4 (counterexample): a single-section mapping whose body contains its
own `<h3>` line makes the HTML renderer emit two h3-marker lines — so the
claim does not hold for every mapping. -/
theorem renderer_marker_count_counterexample :
    csBad.length = 1 ∧ (htmlMarkers (format_html csBad)).length = 2 := by
  exact ⟨rfl, by decide⟩

/-- C4 (amended): for every sections mapping whose keys are nonempty and
newline-free and whose bodies contain no line that itself forms a marker
(no line opening with `### ` or `<h3>`, and no empty or all-`=` line),
each renderer emits exactly one marker per section, in insertion order:
the marker lists coincide with the mapped key list, and their lengths
equal the number of sections for all three formats. -/
theorem render_markers_exact (cs : Sections)
    (hkey_nl : ∀ p ∈ cs, ∀ c ∈ p.1, c ≠ nlc)
    (hkey_ne : ∀ p ∈ cs, p.1 ≠ [])
    (hbody_md : ∀ p ∈ cs, ∀ l ∈ linesOf p.2, startsWithL mdMark l = false)
    (hbody_html : ∀ p ∈ cs, ∀ l ∈ linesOf p.2, startsWithL h3Open l = false)
    (hbody_text : ∀ p ∈ cs, ∀ l ∈ linesOf p.2, l ≠ [] ∧ allEq eqc l = false) :
    mdMarkers (format_markdown cs) = cs.map (fun p => mdMark ++ pyTitle p.1)
    ∧ htmlMarkers (format_html cs)
        = cs.map (fun p => h3Open ++ pyTitle p.1 ++ h3Close)
    ∧ textMarkers (format_text cs) = cs.map (fun p => pyUpper p.1)
    ∧ (mdMarkers (format_markdown cs)).length = cs.length
    ∧ (htmlMarkers (format_html cs)).length = cs.length
    ∧ (textMarkers (format_text cs)).length = cs.length := by
  refine ⟨mdMarkers_render cs hkey_nl hbody_md,
    htmlMarkers_render cs hkey_nl hbody_html,
    textMarkers_render cs hkey_nl hkey_ne hbody_text, ?_, ?_, ?_⟩
  · rw [mdMarkers_render cs hkey_nl hbody_md, List.length_map]
  · rw [htmlMarkers_render cs hkey_nl hbody_html, List.length_map]
  · rw [textMarkers_render cs hkey_nl hkey_ne hbody_text, List.length_map]

/-- C4 (witness): the amended marker theorem evaluated on a two-section
mapping of plain prose. -/
theorem render_markers_exact_witness :
    mdMarkers (format_markdown csSample)
        = csSample.map (fun p => mdMark ++ pyTitle p.1)
    ∧ htmlMarkers (format_html csSample)
        = csSample.map (fun p => h3Open ++ pyTitle p.1 ++ h3Close)
    ∧ textMarkers (format_text csSample) = csSample.map (fun p => pyUpper p.1)
    ∧ (mdMarkers (format_markdown csSample)).length = csSample.length
    ∧ (htmlMarkers (format_html csSample)).length = csSample.length
    ∧ (textMarkers (format_text csSample)).length = csSample.length :=
  render_markers_exact csSample (by decide) (by decide) (by decide) (by decide)
    (by decide)

/-- C5 (confirmed): `format_output` resolves the format name
case-insensitively (the result depends only on the lowercased name, and
each recognised lowercase name selects its renderer) and any unrecognised
name falls back to the plain-text renderer; being a total function, it
never raises on account of the format name. -/
theorem format_output_selector (cs : Sections) (fmt : List Char) :
    (pyLower fmt = fmtMarkdown → format_output cs fmt = format_markdown cs)
    ∧ (pyLower fmt = fmtHtml → format_output cs fmt = format_html cs)
    ∧ (pyLower fmt = fmtText → format_output cs fmt = format_text cs)
    ∧ (pyLower fmt ≠ fmtMarkdown → pyLower fmt ≠ fmtHtml →
        format_output cs fmt = format_text cs)
    ∧ (∀ fmt2, pyLower fmt = pyLower fmt2 →
        format_output cs fmt = format_output cs fmt2) := by
  refine ⟨?_, ?_, ?_, ?_, ?_⟩
  · intro h
    simp [format_output, h]
  · intro h
    have h1 : fmtHtml ≠ fmtMarkdown := by decide
    simp [format_output, h, h1]
  · intro h
    have h1 : fmtText ≠ fmtMarkdown := by decide
    have h2 : fmtText ≠ fmtHtml := by decide
    simp [format_output, h, h1, h2]
  · intro h1 h2
    simp [format_output, h1, h2]
  · intro fmt2 h
    simp [format_output, h]

/-- C5 (witness): an unrecognised name (`XML`) renders as plain text and
an upper-cased recognised name (`MARKDOWN`) selects the markdown
renderer. -/
theorem format_output_selector_witness :
    format_output csSample ("XML".data) = format_text csSample
    ∧ format_output csSample ("MARKDOWN".data) = format_markdown csSample :=
  ⟨(format_output_selector csSample ("XML".data)).2.2.2.1 (by decide) (by decide),
   (format_output_selector csSample ("MARKDOWN".data)).1 (by decide)⟩

/-- C6 (confirmed): on a dataset with no features, `get_geometry_stats`
returns (it is total, so no exception can escape) with a zero total area
and the not-a-number sentinel for the mean area. -/
theorem compute_stats_empty_dataset (ds : Dataset) (h : ds.features = []) :
    (get_geometry_stats ds).total_area = 0
    ∧ (get_geometry_stats ds).mean_area = none := by
  constructor <;> simp [get_geometry_stats, h, seriesMean]

/-- C6 (witness): the empty-dataset theorem evaluated on a concrete empty
dataset. -/
theorem compute_stats_empty_dataset_witness :
    (get_geometry_stats dsEmpty).total_area = 0
    ∧ (get_geometry_stats dsEmpty).mean_area = none :=
  compute_stats_empty_dataset dsEmpty rfl

/-- C7 (counterexample): the title derivation converts only hyphens;
a stem with an underscore yields `A_B`, not the `A B` which the
both-characters rule of the claim would give. -/
theorem page_title_keeps_underscores :
    page_title ("a_b".data) = "A_B".data
    ∧ page_title ("a_b".data) ≠ spec_page_title ("a_b".data)
    ∧ spec_page_title ("a_b".data) = "A B".data := by
  exact ⟨by decide, by decide, by decide⟩

/-- C7 (amended): the published title is the stem with hyphens (only)
converted to spaces and then title-cased: no hyphen survives into the
title, while underscores are preserved verbatim (title-casing still
capitalises the letter after one). -/
theorem page_title_hyphens_only (stem : List Char) :
    page_title stem = pyTitle (stem.map hyphen_to_space)
    ∧ (page_title stem).count (Char.ofNat 45) = 0
    ∧ (page_title stem).count (Char.ofNat 95) = stem.count (Char.ofNat 95) := by
  refine ⟨rfl, ?_, ?_⟩
  · rw [List.count_eq_zero]
    intro hmem
    have hno : ∀ c ∈ stem.map hyphen_to_space, c ≠ Char.ofNat 45 := by
      intro c hc
      simp only [List.mem_map] at hc
      obtain ⟨x, hx, rfl⟩ := hc
      by_cases hxd : x = Char.ofNat 45
      · subst hxd
        simp only [hyphen_to_space, if_pos rfl]
        decide
      · simp only [hyphen_to_space, if_neg hxd]
        exact hxd
    exact absurd rfl
      (pyTitle_avoids (stem.map hyphen_to_space) (Char.ofNat 45) (by decide)
        (by decide) hno (Char.ofNat 45) hmem)
  · rw [page_title, pyTitle, pyTitleGo_count_usc, count_map_hyphen_usc]

/-- C8 (counterexample): on a core exception the command prints a plain
error line, yet the handler returns normally and the process exits with
code 0, not the non-zero exit the claim requires. -/
theorem describe_data_error_exits_zero :
    (describe_data (Except.error ("boom".data)) none).exit_code = 0
    ∧ (describe_data (Except.error ("boom".data)) none).printed
        = ["[red]Error:[/red] boom".data] := by
  exact ⟨rfl, by decide⟩

/-- C8 (amended): for every core-level exception, `describe_data` prints
exactly one `[red]Error:[/red] message` line and lets no raw stack trace
escape, but the exception is swallowed and the process exit code is 0. -/
theorem describe_data_error_handling (e : List Char) (o : Option (List Char)) :
    (describe_data (Except.error e) o).printed = [errLabel ++ e]
    ∧ (describe_data (Except.error e) o).exit_code = 0
    ∧ (describe_data (Except.error e) o).raw_traceback = false := by
  exact ⟨rfl, rfl, rfl⟩

/-- C9 (confirmed): with the backend unavailable, `suggest_tags` returns
the fixed five-tag fallback list for every description and every requested
count — the count argument never truncates the fallback. -/
theorem suggest_tags_fallback_ignores_count (m : LLMManager) (d : List Char)
    (n : Nat) (h : m.llm_available = false) :
    suggest_tags m d n = generate_fallback_tags
    ∧ (suggest_tags m d n).length = 5
    ∧ suggest_tags m d n
        = ["gis".data, "spatial-data".data, "geospatial".data,
           "vector-data".data, "analysis".data] := by
  have h1 : suggest_tags m d n = generate_fallback_tags := by
    simp [suggest_tags, h]
  exact ⟨h1, by rw [h1]; rfl, by rw [h1]; rfl⟩

/-- C9 (witness): with the backend unavailable and only 2 tags requested,
all five fallback tags are still returned. -/
theorem suggest_tags_fallback_ignores_count_witness :
    suggest_tags mOff ("some description".data) 2 = generate_fallback_tags
    ∧ (suggest_tags mOff ("some description".data) 2).length = 5
    ∧ suggest_tags mOff ("some description".data) 2
        = ["gis".data, "spatial-data".data, "geospatial".data,
           "vector-data".data, "analysis".data] :=
  suggest_tags_fallback_ignores_count mOff ("some description".data) 2 (by decide)

/-- C10 (confirmed): `sync_directory` publishes exactly the files not
named `SUMMARY.md`, in glob order, returning one entry (derived title,
relative path, remote id in call order) per published file; its event
trace is those publishes followed by — strictly after all of them — the
single write of the regenerated `SUMMARY.md` built from the returned
entries. -/
theorem sync_directory_spec (files : List SrcFile) :
    ((sync_directory files).1.map (fun e => e.title)
        = (files.filter (fun f => f.fname ≠ summaryName)).map
            (fun f => page_title (stemOf f.fname)))
    ∧ ((sync_directory files).1.map (fun e => e.path)
        = (files.filter (fun f => f.fname ≠ summaryName)).map relPath)
    ∧ ((sync_directory files).1.map (fun e => e.id)
        = List.range (files.filter (fun f => f.fname ≠ summaryName)).length)
    ∧ (sync_directory files).2
        = ((files.filter (fun f => f.fname ≠ summaryName)).zip
             (List.range (files.filter (fun f => f.fname ≠ summaryName)).length)).map
            (fun q =>
              SyncEvent.publishPage (page_title (stemOf q.1.fname)) q.1.content q.2)
          ++ [SyncEvent.writeSummary (sync_directory files).1] := by
  have hlen : (files.filter (fun f => f.fname ≠ summaryName)).length
      ≤ (List.range' 0 (files.filter (fun f => f.fname ≠ summaryName)).length).length := by
    simp
  have hs := syncLoop_spec files 0
  refine ⟨?_, ?_, ?_, ?_⟩
  · rw [sync_directory, hs]
    simp only [List.map_map]
    rw [show ((fun e => PageEntry.title e) ∘ fun q =>
        ({ title := page_title (stemOf q.1.fname), path := relPath q.1,
           id := q.2 } : PageEntry))
      = (fun f => page_title (stemOf f.fname)) ∘ Prod.fst from rfl]
    rw [List.comp_map, List.map_fst_zip _ _ hlen]
  · rw [sync_directory, hs]
    simp only [List.map_map]
    rw [show ((fun e => PageEntry.path e) ∘ fun q =>
        ({ title := page_title (stemOf q.1.fname), path := relPath q.1,
           id := q.2 } : PageEntry))
      = relPath ∘ Prod.fst from rfl]
    rw [List.comp_map, List.map_fst_zip _ _ hlen]
  · rw [sync_directory, hs]
    simp only [List.map_map]
    rw [show ((fun e => PageEntry.id e) ∘ fun q =>
        ({ title := page_title (stemOf q.1.fname), path := relPath q.1,
           id := q.2 } : PageEntry))
      = Prod.snd from rfl]
    rw [List.map_snd_zip _ _ (by simp), List.range_eq_range']
  · rw [sync_directory, hs]
    simp [List.range_eq_range']
